/-
Verification of the bedrock-training-pipeline repository against its design
specification.  The TypeScript sources are shallowly embedded: pure data
transformations become Lean functions, JavaScript objects with open key sets
become association lists in assignment order (property lookup takes the last
assignment, matching object-spread override semantics), `Date.now()` readings
and external service responses become explicit parameters, and the Step
Functions state machine becomes a transition function on an explicit state
type.
-/
import Mathlib

set_option linter.unusedVariables false

/-! ## Data model (src/app/src/data-service.ts, interfaces) -/

/-- One retrieved content row (interface `TrainingExample`,
src/app/src/data-service.ts lines 161-168).  The open `metadata` map is
modelled as a list of key/value assignments in object order; values are
modelled as strings. -/
structure TrainingExample where
  articleId : String
  title : String
  content : String
  publication : String
  publishedDate : String
  metadata : List (String × String)
deriving Repr, DecidableEq

/-- One training pair (interface `PromptExample`,
src/app/src/data-service.ts lines 170-174). -/
structure PromptExample where
  prompt : String
  completion : String
  metadata : List (String × String)
deriving Repr, DecidableEq

/-- Run parameters (interface `TrainingConfig`,
src/app/src/data-service.ts lines 176-186).  `publicationId` is optional. -/
structure TrainingConfig where
  lookBackDays : Nat
  publicationId : Option String
  trainingRunId : String
  minPromptCount : Nat
  trainingDataBucket : String
  athenaDatabase : String
  athenaTable : String
  athenaWorkgroup : String
  athenaOutputLocation : String
deriving Repr, DecidableEq

/-- Result of a dataset write (interface `ProcessingResult`,
src/app/src/data-service.ts lines 188-194). -/
structure ProcessingResult where
  promptCount : Nat
  s3Location : String
  datasetVersion : String
  processingTime : Nat
  error : Option String
deriving Repr, DecidableEq

/-- JavaScript property lookup on an object represented as its assignments in
evaluation order: the value of the last assignment of the key wins, which is
exactly the override behaviour of a later object-spread. -/
def getProp (o : List (String × String)) (k : String) : Option String :=
  ((o.filter (fun p => p.1 == k)).getLast?).map (fun p => p.2)

/-- JavaScript `x || dflt` on an optional string: `undefined` and the empty
string are falsy and fall back to the default. -/
def jsOrString (v : Option String) (dflt : String) : String :=
  match v with
  | some s => if s = "" then dflt else s
  | none => dflt

/-! ## Workflow orchestrator state machine
(src/lib/bedrock-training-pipeline-stack.ts, `createStateMachine`,
lines 274-338).  Only the training-monitoring loop is relevant to the
claims: WaitForTraining → CheckTrainingStatus → HandleTrainingCompletion,
whose Choice branches on `$.trainingStatus.status`. -/

/-- States of the training-monitoring part of the Step Functions machine. -/
inductive OrchState
  | waitForTraining
  | checkTrainingStatus
  | notifyFailure
  | trainingSucceeded
  | trainingFailed
deriving Repr, DecidableEq

/-- The `HandleTrainingCompletion` Choice (stack lines 308-333): `COMPLETED`
goes to the `TrainingSucceeded` Succeed state, `FAILED` to the
`NotifyFailure` publish (which is chained to the `TrainingFailed` Fail
state), and everything else — including `STOPPED` — to the `.otherwise`
branch, which is `waitForTraining`. -/
def handleTrainingCompletion (status : String) : OrchState :=
  if status = "COMPLETED" then .trainingSucceeded
  else if status = "FAILED" then .notifyFailure
  else .waitForTraining

/-- One transition of the monitoring loop.  `status` is the job status read
by the most recent `CheckTrainingStatus` poll. -/
def orchStep (s : OrchState) (status : String) : OrchState :=
  match s with
  | .waitForTraining => .checkTrainingStatus
  | .checkTrainingStatus => handleTrainingCompletion status
  | .notifyFailure => .trainingFailed
  | .trainingSucceeded => .trainingSucceeded
  | .trainingFailed => .trainingFailed

/-! ## Data job control flow (src/app/src/index.ts, `main`, lines 52-133) -/

/-- Stages of `main` that have externally visible effects. -/
inductive PipelineEvent
  | queriedData
  | cleanedData
  | distilledData
  | savedDataset
  | submittedTrainingJob
deriving Repr, DecidableEq

/-- What one run of `main` did: the stages it invoked, in order, and the
process exit code. -/
structure MainOutcome where
  events : List PipelineEvent
  exitCode : Nat
deriving Repr, DecidableEq

/-- The control flow of `main` (src/app/src/index.ts lines 52-133).  The
external stages are supplied as functions; `saveThrows` / `submitThrows`
model a storage or submission error thrown in Step 5 / Step 6.  Every throw
inside the `try` is caught at line 130 and turns into `process.exit(1)`;
the Step-4 check exits 1 directly. -/
def runMain (minPromptCount : Nat)
    (queryTrainingData : Unit → List TrainingExample)
    (cleanExamples : List TrainingExample → List TrainingExample)
    (distillExamples : List TrainingExample → List PromptExample)
    (saveThrows submitThrows : Bool) : MainOutcome :=
  let rawExamples := queryTrainingData ()
  if rawExamples.length < minPromptCount then
    ⟨[.queriedData], 1⟩
  else
    let cleanedExamples := cleanExamples rawExamples
    if cleanedExamples.length < minPromptCount then
      ⟨[.queriedData, .cleanedData], 1⟩
    else
      let prompts := distillExamples cleanedExamples
      if prompts.length < minPromptCount then
        ⟨[.queriedData, .cleanedData, .distilledData], 1⟩
      else if saveThrows then
        ⟨[.queriedData, .cleanedData, .distilledData, .savedDataset], 1⟩
      else if submitThrows then
        ⟨[.queriedData, .cleanedData, .distilledData, .savedDataset,
          .submittedTrainingJob], 1⟩
      else
        ⟨[.queriedData, .cleanedData, .distilledData, .savedDataset,
          .submittedTrainingJob], 0⟩

/-! ## Claim C1 -/

/-- C1: the claim states that a `STOPPED` poll status leads to
`NOTIFY_TRAINING_FAILURE` and then `FAILED`, never back to `WAIT`.  The
embedded Choice does route `COMPLETED` to the succeeded terminal state,
`FAILED` to the failure notification and then the failed terminal state, and
`SUBMITTED` / `IN_PROGRESS` back to the wait state — but `STOPPED` matches
neither `.when` condition and falls into `.otherwise`, which is the wait
state.  This theorem evaluates the machine at every status, exhibiting the
divergence on `STOPPED`. -/
theorem c1_stopped_status_loops_back_to_wait :
    orchStep .checkTrainingStatus "COMPLETED" = .trainingSucceeded ∧
    orchStep .checkTrainingStatus "FAILED" = .notifyFailure ∧
    orchStep .notifyFailure "FAILED" = .trainingFailed ∧
    orchStep .checkTrainingStatus "SUBMITTED" = .waitForTraining ∧
    orchStep .checkTrainingStatus "IN_PROGRESS" = .waitForTraining ∧
    orchStep .checkTrainingStatus "STOPPED" = .waitForTraining := by
  decide

/-! ## Claim C2 -/

/-- C2: minimum-count enforcement in `main`.  If the retrieved record count
is below the configured minimum the run exits non-zero before the cleaning
stage is invoked; if the cleaned count is below the minimum it exits before
the distillation stage; if the generated example count is below the minimum
it exits before the storage write; and in each of these failure cases no
dataset write and no training-job submission occur. -/
theorem c2_minimum_count_enforcement (minPromptCount : Nat)
    (query : Unit → List TrainingExample)
    (clean : List TrainingExample → List TrainingExample)
    (distill : List TrainingExample → List PromptExample)
    (saveThrows submitThrows : Bool) :
    ((query ()).length < minPromptCount →
      runMain minPromptCount query clean distill saveThrows submitThrows =
        ⟨[.queriedData], 1⟩) ∧
    ((query ()).length ≥ minPromptCount →
      (clean (query ())).length < minPromptCount →
      runMain minPromptCount query clean distill saveThrows submitThrows =
        ⟨[.queriedData, .cleanedData], 1⟩) ∧
    ((query ()).length ≥ minPromptCount →
      (clean (query ())).length ≥ minPromptCount →
      (distill (clean (query ()))).length < minPromptCount →
      runMain minPromptCount query clean distill saveThrows submitThrows =
        ⟨[.queriedData, .cleanedData, .distilledData], 1⟩) := by
  refine ⟨fun h1 => ?_, fun h1 h2 => ?_, fun h1 h2 h3 => ?_⟩ <;>
    simp only [runMain] <;>
    first
      | (rw [if_pos h1])
      | (rw [if_neg (Nat.not_lt.mpr h1), if_pos h2])
      | (rw [if_neg (Nat.not_lt.mpr h1), if_neg (Nat.not_lt.mpr h2), if_pos h3])

/-- Witness for C2 at a concrete run: minimum 2, a single retrieved record,
so the run stops after querying with exit code 1, having invoked neither
cleaning, nor distillation, nor the write, nor the submission. -/
theorem c2_minimum_count_enforcement_witness :
    runMain 2 (fun _ => [⟨"a", "t", "c", "p", "d", []⟩])
        (fun l => l) (fun _ => []) false false =
      ⟨[.queriedData], 1⟩ :=
  (c2_minimum_count_enforcement 2 (fun _ => [⟨"a", "t", "c", "p", "d", []⟩])
      (fun l => l) (fun _ => []) false false).1 (by decide)

/-! ## Record retriever (src/app/src/data-service.ts, `getQueryResults`,
lines 115-154).  The analytical backend's successive responses are modelled
as a list of pages; the do/while loop always processes the first response
and keeps requesting pages while the previous response carried a
`NextToken`.  The external `JSON.parse` of the optional sixth column is
supplied as the `parseMetadata` parameter. -/

/-- One result cell (Athena `Datum`). -/
structure AthenaDatum where
  VarCharValue : Option String
deriving Repr, DecidableEq

/-- One result row (Athena `Row`); a missing `Data` array is the empty list. -/
structure AthenaRow where
  Data : List AthenaDatum
deriving Repr, DecidableEq

/-- One `GetQueryResults` response page. -/
structure AthenaPage where
  Rows : List AthenaRow
  NextToken : Option String
deriving Repr, DecidableEq

/-- `extractValue` (data-service.ts lines 156-158): `data.VarCharValue || ""`. -/
def extractValue (d : AthenaDatum) : String := d.VarCharValue.getD ""

/-- The row-decoding body of the results loop (data-service.ts lines
132-147): rows with at least 5 cells become a record, the optional sixth
cell is JSON-parsed into `metadata` (with `"{}"` substituted for an empty
string), shorter rows are skipped. -/
def decodeRow (parseMetadata : String → List (String × String))
    (row : AthenaRow) : Option TrainingExample :=
  if row.Data.length ≥ 5 then
    some { articleId := extractValue (row.Data.getD 0 ⟨none⟩)
           title := extractValue (row.Data.getD 1 ⟨none⟩)
           content := extractValue (row.Data.getD 2 ⟨none⟩)
           publication := extractValue (row.Data.getD 3 ⟨none⟩)
           publishedDate := extractValue (row.Data.getD 4 ⟨none⟩)
           metadata :=
             if row.Data.length ≥ 6 then
               let s := extractValue (row.Data.getD 5 ⟨none⟩)
               parseMetadata (if s = "" then "\x7b\x7d" else s)
             else [] }
  else none

/-- `getQueryResults` (data-service.ts lines 115-154): on every page the
`for` loop starts at row index 1 (the "Skip header row" comment), so the
first row of each page is discarded, and pagination continues while the
response carries a `NextToken`. -/
def getQueryResults (parseMetadata : String → List (String × String)) :
    List AthenaPage → List TrainingExample
  | [] => []
  | page :: rest =>
    (page.Rows.drop 1).filterMap (decodeRow parseMetadata) ++
      (if page.NextToken.isSome then getQueryResults parseMetadata rest
       else [])

/-- A well-formed 5-column Athena result row with article id `i`. -/
def athDataRow (i : String) : AthenaRow :=
  ⟨[⟨some i⟩, ⟨some "Title"⟩, ⟨some "Body"⟩, ⟨some "pub"⟩,
    ⟨some "2025-01-01"⟩]⟩

/-- A two-page result set: the first page holds the header row and one data
row and carries a next-page token; the second page holds two data rows and
no token. -/
def athPages : List AthenaPage :=
  [⟨[⟨[⟨some "article_id"⟩, ⟨some "title"⟩, ⟨some "content"⟩,
      ⟨some "publication_id"⟩, ⟨some "published_date"⟩]⟩,
     athDataRow "id1"], some "token"⟩,
   ⟨[athDataRow "id2", athDataRow "id3"], none⟩]

/-! ## Claim C3 -/

/-- C3: the claim states that only the single header row of the result set
is skipped, so no row of a subsequent page is dropped.  On the concrete
two-page result set above — three well-formed data rows `id1`, `id2`, `id3`
— the fetch returns only two records: row `id2`, the first row of the
second page, decodes fine in isolation but is dropped, because the loop
skips row index 0 of **every** page, not only the header page. -/
theorem c3_fetch_drops_first_row_of_later_pages :
    getQueryResults (fun _ => []) athPages =
      [⟨"id1", "Title", "Body", "pub", "2025-01-01", []⟩,
       ⟨"id3", "Title", "Body", "pub", "2025-01-01", []⟩] ∧
    decodeRow (fun _ => []) (athDataRow "id2") =
      some ⟨"id2", "Title", "Body", "pub", "2025-01-01", []⟩ ∧
    (⟨"id2", "Title", "Body", "pub", "2025-01-01", []⟩ : TrainingExample) ∉
      getQueryResults (fun _ => []) athPages := by
  refine ⟨rfl, rfl, ?_⟩
  decide

/-! ## Distillation service (src/app/src/data-service.ts, class
`DistillationService`, lines 202-352).  The teacher invocation together
with JSON-decoding its response body is modelled by a `TeacherOutcome`:
`Except.error msg` is any thrown error (transport, backend, or decode),
`Except.ok body` a decoded response body. -/

/-- One element of the response body's `content` array; `text` may be
missing. -/
structure ContentItem where
  text : Option String
deriving Repr, DecidableEq

/-- A decoded teacher response body; the `content` array may be missing. -/
structure TeacherResponseBody where
  content : Option (List ContentItem)
deriving Repr, DecidableEq

/-- Result of the teacher invocation try-block up to and including decoding
the response body. -/
abbrev TeacherOutcome := Except String TeacherResponseBody

/-- `createStudentPrompt` (data-service.ts lines 343-351): the student-facing
prompt, built from the record's content truncated to 500 characters and its
publication, with a fixed style-requirement line. -/
def createStudentPrompt (e : TrainingExample) : String :=
  "Generate a headline for the following article:\n\nArticle content:\n" ++
    e.content.take 500 ++
    (if e.content.length > 500 then "..." else "") ++
    "\n\nPublication: " ++ e.publication ++
    "\nStyle requirements: Editorial quality, SEO-optimized, engaging"

/-- JavaScript `String.prototype.trim`: removes leading and trailing
whitespace. -/
def jsTrim (s : String) : String :=
  (((s.toList.dropWhile Char.isWhitespace).reverse.dropWhile
      Char.isWhitespace).reverse).asString

/-- The extraction `responseBody.content?.[0]?.text?.trim() || example.title`
(data-service.ts lines 284-285): optional chaining yields the trimmed text
of the first content item when present, and `||` falls back to the record's
title when the chain is missing or the trimmed text is empty. -/
def teacherCompletionOf (rb : TeacherResponseBody) (title : String) : String :=
  match (rb.content.bind List.head?).bind ContentItem.text with
  | some t => if jsTrim t = "" then title else jsTrim t
  | none => title

/-- `generateTeacherOutput` (data-service.ts lines 257-318).  On a decoded
response the example uses the teacher completion and the success-branch
metadata object; on a thrown error it falls back to the record's title and
the error-branch metadata object.  In both branches `...example.metadata`
is spread last, so the record's own metadata assignments come after the
provenance fields. -/
def generateTeacherOutput (teacherModelId : String) (e : TrainingExample)
    (outcome : TeacherOutcome) : PromptExample :=
  match outcome with
  | .ok responseBody =>
    { prompt := createStudentPrompt e
      completion := teacherCompletionOf responseBody e.title
      metadata :=
        [("articleId", e.articleId),
         ("publication", e.publication),
         ("publishedDate", e.publishedDate),
         ("originalTitle", e.title),
         ("teacherModel", teacherModelId)] ++ e.metadata }
  | .error err =>
    { prompt := createStudentPrompt e
      completion := e.title
      metadata :=
        [("articleId", e.articleId),
         ("publication", e.publication),
         ("publishedDate", e.publishedDate),
         ("teacherModelError", err)] ++ e.metadata }

/-- The batching loop of `distillExamples` (data-service.ts lines 233-248)
with batch size `k + 1`: the slice of the next `k + 1` records is processed
(each record through `generateTeacherOutput`), the results are appended in
order, and the loop continues on the rest. -/
def distillGo (teacherModelId : String)
    (invokeTeacher : TrainingExample → TeacherOutcome) (k : Nat) :
    List TrainingExample → List PromptExample
  | [] => []
  | e :: es =>
    (generateTeacherOutput teacherModelId e (invokeTeacher e) ::
      (es.take k).map
        (fun x => generateTeacherOutput teacherModelId x (invokeTeacher x))) ++
      distillGo teacherModelId invokeTeacher k (es.drop k)
termination_by l => l.length
decreasing_by simp [List.length_drop]; omega

/-- `distillExamples` (data-service.ts lines 224-252), with the constructor
default `config.maxConcurrentRequests || 5` (lines 213-217) applied: a batch
size of `0` is falsy and becomes `5`. -/
def distillExamples (teacherModelId : String) (maxConcurrentRequests : Nat)
    (invokeTeacher : TrainingExample → TeacherOutcome)
    (examples : List TrainingExample) : List PromptExample :=
  let maxReq := if maxConcurrentRequests = 0 then 5 else maxConcurrentRequests
  distillGo teacherModelId invokeTeacher (maxReq - 1) examples

/-- The batching loop produces exactly the in-order map of the per-record
step over all records, whatever the batch size. -/
theorem distillGo_eq_map (teacherModelId : String)
    (invokeTeacher : TrainingExample → TeacherOutcome) (k : Nat) :
    ∀ l : List TrainingExample,
      distillGo teacherModelId invokeTeacher k l =
        l.map (fun x => generateTeacherOutput teacherModelId x
          (invokeTeacher x)) := by
  have H : ∀ (n : Nat) (l : List TrainingExample), l.length ≤ n →
      distillGo teacherModelId invokeTeacher k l =
        l.map (fun x => generateTeacherOutput teacherModelId x
          (invokeTeacher x)) := by
    intro n
    induction n with
    | zero =>
      intro l hl
      have : l = [] := List.length_eq_zero.mp (Nat.le_zero.mp hl)
      subst this
      rw [distillGo]
      rfl
    | succ n ih =>
      intro l hl
      match l with
      | [] => rw [distillGo]; rfl
      | e :: es =>
        rw [distillGo, ih (es.drop k)
          (by rw [List.length_drop]; simp at hl; omega)]
        simp only [List.cons_append, List.map_cons, List.cons.injEq, true_and]
        rw [← List.map_append, List.take_append_drop]
  exact fun l => H l.length l le_rfl

/-- The value of the last assignment of a key in the right part of an object
wins over any assignment in the left part. -/
theorem getProp_append_right (a b : List (String × String)) (k v : String)
    (h : getProp b k = some v) : getProp (a ++ b) k = some v := by
  unfold getProp at h ⊢
  have hne : b.filter (fun p => p.1 == k) ≠ [] := by
    intro hnil
    rw [hnil] at h
    simp at h
  rw [List.filter_append, List.getLast?_append_of_ne_nil _ hne]
  exact h

/-- When the right part of an object assigns nothing to a key, lookup of that
key falls through to the left part. -/
theorem getProp_append_left (a b : List (String × String)) (k : String)
    (h : getProp b k = none) : getProp (a ++ b) k = getProp a k := by
  unfold getProp at h ⊢
  have hb : b.filter (fun p => p.1 == k) = [] := by
    rcases hfb : b.filter (fun p => p.1 == k) with _ | ⟨x, xs⟩
    · exact hfb
    · exfalso
      rw [hfb, Option.map_eq_none'] at h
      simp [List.getLast?] at h
  rw [List.filter_append, hb, List.append_nil]

/-! ## Claim C5 -/

/-- C5: the example's prompt produced by the per-record distillation step is
a function of the source record alone: whatever the teacher outcomes, even
one success and one failure on the same record, the produced prompt strings
are identical, and both equal `createStudentPrompt` — the fixed template
built from the record's publication and its content truncated to 500
characters with the fixed style-requirement text. -/
theorem c5_prompt_independent_of_teacher_outcome (teacherModelId : String)
    (e : TrainingExample) (o1 o2 : TeacherOutcome) :
    (generateTeacherOutput teacherModelId e o1).prompt =
      (generateTeacherOutput teacherModelId e o2).prompt ∧
    (generateTeacherOutput teacherModelId e o1).prompt =
      createStudentPrompt e := by
  cases o1 <;> cases o2 <;> exact ⟨rfl, rfl⟩

/-! ## Claim C4 -/

/-- A concrete record used to refute C4 as stated. -/
def c4Record : TrainingExample :=
  ⟨"a1", "Breaking News", "body text", "pub", "2025-01-01", []⟩

/-- C4 counterexample: a teacher invocation that succeeds with response text
`" "` has trimmed response text `""`, yet the produced example's target is
the record's original title `"Breaking News"`, not the trimmed response
text — the `|| example.title` fallback also fires on a successful
invocation whose trimmed text is empty. -/
theorem c4_counterexample_successful_call_empty_text :
    jsTrim " " = "" ∧
    (generateTeacherOutput "teacher-model" c4Record
        (Except.ok ⟨some [⟨some " "⟩]⟩)).completion = "Breaking News" ∧
    ("Breaking News" : String) ≠ "" := by
  refine ⟨by decide, by decide, by decide⟩

/-- C4 amended: for every input record the distillation stage produces
exactly one example (`distillExamples` returns one example per record and
never fails the run on an invocation error); when the teacher invocation
succeeds the target equals the teacher's trimmed response text **when that
text is present and trims to a non-empty string**, and otherwise equals the
record's original title; on any invocation error the target equals the
record's original title and — **provided the record's own metadata does not
itself assign the key `teacherModelError`, which is spread last and would
override it** — the error text is recorded in the example metadata under
`teacherModelError`. -/
theorem c4_amended_per_record_distillation (teacherModelId : String)
    (maxConcurrentRequests : Nat)
    (invokeTeacher : TrainingExample → TeacherOutcome)
    (examples : List TrainingExample) (e : TrainingExample) (err : String)
    (rb : TeacherResponseBody) (t : String) :
    (distillExamples teacherModelId maxConcurrentRequests invokeTeacher
        examples).length = examples.length ∧
    ((rb.content.bind List.head?).bind ContentItem.text = some t →
      jsTrim t ≠ "" →
      (generateTeacherOutput teacherModelId e (Except.ok rb)).completion =
        jsTrim t) ∧
    ((rb.content.bind List.head?).bind ContentItem.text = some t →
      jsTrim t = "" →
      (generateTeacherOutput teacherModelId e (Except.ok rb)).completion =
        e.title) ∧
    ((rb.content.bind List.head?).bind ContentItem.text = none →
      (generateTeacherOutput teacherModelId e (Except.ok rb)).completion =
        e.title) ∧
    (generateTeacherOutput teacherModelId e (Except.error err)).completion =
      e.title ∧
    (getProp e.metadata "teacherModelError" = none →
      getProp (generateTeacherOutput teacherModelId e
          (Except.error err)).metadata "teacherModelError" = some err) := by
  refine ⟨?_, ?_, ?_, ?_, rfl, ?_⟩
  · unfold distillExamples
    rw [distillGo_eq_map, List.length_map]
  · intro h hne
    simp only [generateTeacherOutput, teacherCompletionOf, h, if_neg hne]
  · intro h heq
    simp only [generateTeacherOutput, teacherCompletionOf, h, if_pos heq]
  · intro h
    simp only [generateTeacherOutput, teacherCompletionOf, h]
  · intro h
    show getProp (_ ++ e.metadata) "teacherModelError" = some err
    rw [getProp_append_left _ _ _ h]
    simp [getProp]

/-- Witness for the amended C4 at concrete inputs: one record distilled under
an always-failing teacher yields exactly one example; a successful response
with text `" Fresh Headline "` yields the trimmed completion
`"Fresh Headline"`; a failing invocation with message `"boom"` records
`teacherModelError = "boom"` in the metadata of the produced example. -/
theorem c4_amended_per_record_distillation_witness :
    (distillExamples "tm" 5 (fun _ => Except.error "boom")
        [c4Record]).length = 1 ∧
    (generateTeacherOutput "tm" c4Record
        (Except.ok ⟨some [⟨some " Fresh Headline "⟩]⟩)).completion =
      "Fresh Headline" ∧
    getProp (generateTeacherOutput "tm" c4Record
        (Except.error "boom")).metadata "teacherModelError" = some "boom" := by
  have H := c4_amended_per_record_distillation "tm" 5
    (fun _ => Except.error "boom") [c4Record] c4Record "boom"
    ⟨some [⟨some " Fresh Headline "⟩]⟩ " Fresh Headline "
  refine ⟨H.1, ?_, H.2.2.2.2.2 (by decide)⟩
  rw [H.2.1 (by decide) (by decide)]
  decide

/-! ## Claim C10 -/

/-- C10: because `...example.metadata` is spread last into the produced
example's metadata object, any key the record's open metadata map assigns —
including every provenance field name (`articleId`, `publication`,
`publishedDate`, `originalTitle`, `teacherModel`, `teacherModelError`) —
resolves to the record's metadata value rather than the provenance value,
in both the success and the error branch. -/
theorem c10_record_metadata_overrides_provenance (teacherModelId : String)
    (e : TrainingExample) (outcome : TeacherOutcome) (k v : String)
    (hk : k = "articleId" ∨ k = "publication" ∨ k = "publishedDate" ∨
      k = "originalTitle" ∨ k = "teacherModel" ∨ k = "teacherModelError")
    (hv : getProp e.metadata k = some v) :
    getProp (generateTeacherOutput teacherModelId e outcome).metadata k =
      some v := by
  cases outcome <;> exact getProp_append_right _ _ _ _ hv

/-- Witness for C10: a record whose source metadata assigns
`teacherModelError = "from-source"` produces, under a failing teacher
invocation with message `"boom"`, an example whose metadata resolves
`teacherModelError` to `"from-source"` — the recorded teacher error note is
silently overwritten. -/
theorem c10_record_metadata_overrides_provenance_witness :
    getProp (generateTeacherOutput "tm"
        ⟨"a1", "T", "c", "p", "d", [("teacherModelError", "from-source")]⟩
        (Except.error "boom")).metadata "teacherModelError" =
      some "from-source" :=
  c10_record_metadata_overrides_provenance "tm"
    ⟨"a1", "T", "c", "p", "d", [("teacherModelError", "from-source")]⟩
    (Except.error "boom") "teacherModelError" "from-source"
    (Or.inr (Or.inr (Or.inr (Or.inr (Or.inr rfl))))) (by decide)

/-! ## Data cleaner (src/app/src/storage-service.ts, class `DataCleaner`).
The instance field `seenArticleIds : Set<string>` is modelled as an explicit
list of ids threaded through the call. -/

/-- The `for` loop of `filterDuplicates` (storage-service.ts lines 128-133):
an example whose id is already in the seen set is dropped, otherwise its id
is added and the example is pushed.  Returns the final seen set and the
unique list. -/
def filterDuplicatesLoop (seen : List String) :
    List TrainingExample → List String × List TrainingExample
  | [] => (seen, [])
  | e :: es =>
    if seen.contains e.articleId then filterDuplicatesLoop seen es
    else
      let r := filterDuplicatesLoop (e.articleId :: seen) es
      (r.1, e :: r.2)

/-- `DataCleaner.filterDuplicates` (storage-service.ts lines 124-136):
`this.seenArticleIds.clear()` discards whatever the instance accumulated in
earlier invocations, then the loop runs from an empty seen set. -/
def filterDuplicates (seenArticleIds : List String)
    (examples : List TrainingExample) : List String × List TrainingExample :=
  filterDuplicatesLoop [] examples

/-- Specification-side duplicate elimination: keep the first occurrence of
each article id in input order and drop every later record with that id. -/
def keepFirstById : List TrainingExample → List TrainingExample
  | [] => []
  | e :: es =>
    e :: keepFirstById (es.filter (fun x => x.articleId != e.articleId))
termination_by l => l.length
decreasing_by
  simp
  exact Nat.lt_succ_of_le (List.length_filter_le _ _)

/-- The duplicate-filtering loop from seen set `seen` behaves like the
specification dedup applied to the input with already-seen ids removed. -/
theorem filterDuplicatesLoop_eq (l : List TrainingExample) :
    ∀ seen : List String,
      (filterDuplicatesLoop seen l).2 =
        keepFirstById (l.filter (fun x => !seen.contains x.articleId)) := by
  induction l with
  | nil =>
    intro seen
    rw [filterDuplicatesLoop, List.filter_nil, keepFirstById]
  | cons e es ih =>
    intro seen
    rw [filterDuplicatesLoop, List.filter_cons]
    cases hc : seen.contains e.articleId with
    | true =>
      simp only [if_true, Bool.not_true, Bool.false_eq_true, if_false]
      exact ih seen
    | false =>
      simp only [Bool.false_eq_true, if_false, Bool.not_false, if_true]
      rw [keepFirstById, List.filter_filter]
      simp only [List.cons.injEq, true_and]
      rw [ih (e.articleId :: seen)]
      congr 1
      apply List.filter_congr
      intro x _
      simp only [List.contains_cons, Bool.not_or, bne]

/-- Every record kept by the specification dedup comes from the input. -/
theorem keepFirstById_mem {x : TrainingExample} :
    ∀ l : List TrainingExample, x ∈ keepFirstById l → x ∈ l := by
  have H : ∀ (n : Nat) (l : List TrainingExample), l.length ≤ n →
      x ∈ keepFirstById l → x ∈ l := by
    intro n
    induction n with
    | zero =>
      intro l hl hx
      have : l = [] := List.length_eq_zero.mp (Nat.le_zero.mp hl)
      subst this
      rw [keepFirstById] at hx
      exact hx
    | succ n ih =>
      intro l hl hx
      match l with
      | [] => rw [keepFirstById] at hx; exact hx
      | e :: es =>
        rw [keepFirstById] at hx
        rcases List.mem_cons.mp hx with h | h
        · exact h ▸ List.mem_cons_self e es
        · have hlen : (es.filter
              (fun y => y.articleId != e.articleId)).length ≤ n := by
            have := List.length_filter_le
              (fun y => y.articleId != e.articleId) es
            simp at hl
            omega
          exact List.mem_cons_of_mem e
            (List.mem_of_mem_filter (ih _ hlen h))
  exact fun l => H l.length l le_rfl

/-- Filtering the dedup result for one id yields exactly the input's first
record with that id. -/
theorem keepFirstById_filter_take (idv : String) :
    ∀ l : List TrainingExample,
      (keepFirstById l).filter (fun x => x.articleId == idv) =
        (l.filter (fun x => x.articleId == idv)).take 1 := by
  have H : ∀ (n : Nat) (l : List TrainingExample), l.length ≤ n →
      (keepFirstById l).filter (fun x => x.articleId == idv) =
        (l.filter (fun x => x.articleId == idv)).take 1 := by
    intro n
    induction n with
    | zero =>
      intro l hl
      have : l = [] := List.length_eq_zero.mp (Nat.le_zero.mp hl)
      subst this
      rw [keepFirstById]
      rfl
    | succ n ih =>
      intro l hl
      match l with
      | [] => rw [keepFirstById]; rfl
      | e :: es =>
        have hlen : (es.filter
            (fun y => y.articleId != e.articleId)).length ≤ n := by
          have := List.length_filter_le
            (fun y => y.articleId != e.articleId) es
          simp at hl
          omega
        rw [keepFirstById, List.filter_cons, List.filter_cons]
        cases he : (e.articleId == idv) with
        | true =>
          simp only [if_true]
          have hkf : (keepFirstById (es.filter
              (fun y => y.articleId != e.articleId))).filter
                (fun x => x.articleId == idv) = [] := by
            rw [List.filter_eq_nil_iff]
            intro a ha
            have hmem := keepFirstById_mem _ ha
            have hbne : (a.articleId != e.articleId) = true :=
              (List.mem_filter.mp hmem).2
            have heq : e.articleId = idv := by simpa using he
            simp only [bne, heq] at hbne
            simpa using hbne
          rw [hkf]
          rfl
        | false =>
          simp only [Bool.false_eq_true, if_false]
          rw [ih _ hlen, List.filter_filter]
          congr 1
          apply List.filter_congr
          intro x _
          cases hx : (x.articleId == idv) with
          | true =>
            have hxe : x.articleId = idv := by simpa using hx
            have hne : e.articleId ≠ idv := by
              intro hcon
              rw [hcon] at he
              simp at he
            have hne2 : idv ≠ e.articleId := fun hcon => hne hcon.symm
            simp [bne, hxe, hne2]
          | false => simp [hx]
  exact fun l => H l.length l le_rfl

/-! ## Claim C6 -/

/-- C6: duplicate elimination keeps exactly the first occurrence of each
article id in input order — filtering its output for any id yields the take
of the first matching input record — and, because `seenArticleIds.clear()`
runs at the start of every invocation, the result is independent of
whatever seen-id state an earlier invocation on the same cleaner instance
left behind. -/
theorem c6_duplicate_elimination (seen1 seen2 : List String)
    (examples : List TrainingExample) :
    (filterDuplicates seen1 examples).2 = keepFirstById examples ∧
    (filterDuplicates seen1 examples).2 =
      (filterDuplicates seen2 examples).2 ∧
    ∀ idv : String,
      (filterDuplicates seen1 examples).2.filter
          (fun x => x.articleId == idv) =
        (examples.filter (fun x => x.articleId == idv)).take 1 := by
  have h1 : (filterDuplicates seen1 examples).2 = keepFirstById examples := by
    unfold filterDuplicates
    rw [filterDuplicatesLoop_eq]
    congr 1
    simp
  exact ⟨h1, rfl, fun idv => by rw [h1]; exact keepFirstById_filter_take idv examples⟩

/-- Count of upper-case letters in a string: the matches of the regular
expression `[A-Z]` (storage-service.ts line 166). -/
def upperCaseCount (s : String) : Nat :=
  s.toList.countP (fun c => decide ('A' ≤ c) && decide (c ≤ 'Z'))

/-- Total count of quotation-mark characters in title plus body, the
`quoteCount` of storage-service.ts lines 146-148. -/
def quoteCountOf (e : TrainingExample) : Nat :=
  e.title.toList.count '"' + e.content.toList.count '"'

/-- The filter predicate of `DataCleaner.validateEntitiesAndQuotes`
(storage-service.ts lines 144-172).  The unbalanced-quote check only logs a
warning (`quoteCountOf` is computed and discarded); the length checks
reject short bodies and titles; the spam heuristic rejects mostly
upper-case long titles.  The floating-point comparison
`allCapsRatio > 0.8` is modelled exactly by `5 * upper > 4 * length`
(equivalent to the rational inequality `upper / length > 4/5`; for any
JavaScript string length the two rationals are further apart than double
rounding error, so the double comparison agrees). -/
def validateOne (e : TrainingExample) : Bool :=
  let _quoteCount := quoteCountOf e
  if e.content.length < 50 || e.title.length < 5 then false
  else if 5 * upperCaseCount e.title > 4 * e.title.length &&
      e.title.length > 20 then false
  else true

/-- `DataCleaner.validateEntitiesAndQuotes` (storage-service.ts lines
141-173). -/
def validateEntitiesAndQuotes (examples : List TrainingExample) :
    List TrainingExample :=
  examples.filter validateOne

/-- The upper-case ratio exceeds 0.8 exactly when `4 * len < 5 * upper`. -/
theorem ratio_gt_iff (u len : Nat) (hlen : 0 < len) :
    ((u : ℚ) / (len : ℚ) > 0.8) ↔ 4 * len < 5 * u := by
  rw [gt_iff_lt, show (0.8 : ℚ) = 4 / 5 by norm_num,
    div_lt_div_iff (by norm_num) (by exact_mod_cast hlen),
    mul_comm (u : ℚ) 5]
  exact_mod_cast Iff.rfl

/-- The keep-decision of `validateOne`, stated over the natural numbers. -/
theorem validateOne_eq_true_iff (e : TrainingExample) :
    validateOne e = true ↔
      50 ≤ e.content.length ∧ 5 ≤ e.title.length ∧
        ¬(4 * e.title.length < 5 * upperCaseCount e.title ∧
          20 < e.title.length) := by
  unfold validateOne
  split_ifs with h1 h2
  · simp only [Bool.or_eq_true, decide_eq_true_eq] at h1
    simp only [Bool.false_eq_true, false_iff]
    rintro ⟨hc, ht, -⟩
    omega
  · simp only [Bool.and_eq_true, decide_eq_true_eq] at h2
    simp only [Bool.false_eq_true, false_iff]
    rintro ⟨-, -, hn⟩
    exact hn ⟨h2.1, h2.2⟩
  · simp only [Bool.or_eq_true, decide_eq_true_eq, not_or] at h1
    simp only [Bool.and_eq_true, decide_eq_true_eq, not_and] at h2
    simp only [true_iff]
    refine ⟨by omega, by omega, ?_⟩
    rintro ⟨ha, hb⟩
    exact h2 ha hb

/-! ## Claim C7 -/

/-- C7: the heuristic-validation stage keeps a record if and only if its
body is at least 50 characters, its title at least 5 characters, and it is
not the case that the ratio of upper-case letters to title length exceeds
0.8 while the title length exceeds 20; the quotation-mark parity is
computed but never causes a rejection, so a record with an odd total count
of quotation marks in title plus body satisfies the same if-and-only-if. -/
theorem c7_heuristic_validation_iff (examples : List TrainingExample)
    (e : TrainingExample) :
    (e ∈ validateEntitiesAndQuotes examples ↔
      e ∈ examples ∧ 50 ≤ e.content.length ∧ 5 ≤ e.title.length ∧
        ¬((upperCaseCount e.title : ℚ) / (e.title.length : ℚ) > 0.8 ∧
          20 < e.title.length)) ∧
    (quoteCountOf e % 2 = 1 →
      (validateOne e = true ↔
        50 ≤ e.content.length ∧ 5 ≤ e.title.length ∧
          ¬((upperCaseCount e.title : ℚ) / (e.title.length : ℚ) > 0.8 ∧
            20 < e.title.length))) := by
  have hone : validateOne e = true ↔
      50 ≤ e.content.length ∧ 5 ≤ e.title.length ∧
        ¬((upperCaseCount e.title : ℚ) / (e.title.length : ℚ) > 0.8 ∧
          20 < e.title.length) := by
    rw [validateOne_eq_true_iff]
    constructor
    · rintro ⟨hc, ht, hn⟩
      refine ⟨hc, ht, ?_⟩
      rintro ⟨hr1, hr2⟩
      exact hn ⟨(ratio_gt_iff _ _ (by omega)).mp hr1, hr2⟩
    · rintro ⟨hc, ht, hn⟩
      refine ⟨hc, ht, ?_⟩
      rintro ⟨hr1, hr2⟩
      exact hn ⟨(ratio_gt_iff _ _ (by omega)).mpr hr1, hr2⟩
  constructor
  · unfold validateEntitiesAndQuotes
    rw [List.mem_filter, hone]
  · exact fun _ => hone

/-- A concrete record with a 56-character body containing one quotation
mark (odd parity), a 13-character title, and no spammy casing. -/
def c7Record : TrainingExample :=
  ⟨"a7", "Quiet Morning",
   "He said \" hello and then kept walking down the long road",
   "pub", "2025-01-02", []⟩

/-- Witness for C7: `c7Record` has an odd quotation-mark count and the
validation stage keeps it, via the if-and-only-if at this concrete
record. -/
theorem c7_heuristic_validation_iff_witness :
    quoteCountOf c7Record % 2 = 1 ∧ validateOne c7Record = true := by
  refine ⟨by decide, ?_⟩
  rw [(c7_heuristic_validation_iff [c7Record] c7Record).2 (by decide)]
  exact ⟨by decide, by decide, fun h => absurd h.2 (by decide)⟩

/-! ## Storage service (src/app/src/storage-service.ts,
`StorageService.saveTrainingDataset`, lines 11-51).  `JSON.stringify` is
external; it is modelled by a serializer that escapes the characters
relevant to line structure (every serialization of a string escapes raw
newlines, so a serialized object never spans lines — the only property the
claims rely on). -/

/-- JSON escaping of one character inside a string literal. -/
def jsonEscapeChar (c : Char) : String :=
  if c = '"' then "\\\""
  else if c = '\\' then "\\\\"
  else if c = '\n' then "\\n"
  else if c = '\r' then "\\r"
  else if c = '\t' then "\\t"
  else String.singleton c

/-- JSON escaping of a character list. -/
def jsonEscapeList : List Char → String
  | [] => ""
  | c :: cs => jsonEscapeChar c ++ jsonEscapeList cs

/-- A JSON string literal with escaping. -/
def jsonStr (s : String) : String := "\"" ++ jsonEscapeList s.toList ++ "\""

/-- `Array.prototype.join` with a separator. -/
def joinWith (sep : String) : List String → String
  | [] => ""
  | [x] => x
  | x :: y :: rest => x ++ sep ++ joinWith sep (y :: rest)

/-- One metadata entry as a JSON member. -/
def serializeKV (kv : String × String) : String :=
  jsonStr kv.1 ++ ":" ++ jsonStr kv.2

/-- `JSON.stringify` of one `PromptExample`. -/
def serializePromptExample (p : PromptExample) : String :=
  "\x7b\"prompt\":" ++ jsonStr p.prompt ++
    ",\"completion\":" ++ jsonStr p.completion ++
    ",\"metadata\":\x7b" ++ joinWith "," (p.metadata.map serializeKV) ++
    "\x7d\x7d"

/-- Number of raw newline characters in a string. -/
def nlCount (s : String) : Nat := s.data.count '\n'

/-- Number of lines of a newline-separated text. -/
def lineCount (s : String) : Nat := nlCount s + 1

/-- `StorageService.saveTrainingDataset` (storage-service.ts lines 11-51).
`now` is the `Date.now()` reading at entry (used for the dataset version),
`completionTime` the reading at return (the `processingTime` field).
Returns the S3 object key, the serialized JSONL body, and the
`ProcessingResult`. -/
def saveTrainingDataset (now completionTime : Nat)
    (prompts : List PromptExample) (config : TrainingConfig) :
    String × String × ProcessingResult :=
  let datasetVersion := toString now ++ "-" ++ config.trainingRunId
  let key := "datasets/" ++ jsOrString config.publicationId "all" ++ "/" ++
    datasetVersion ++ "/training-data.jsonl"
  let jsonlContent := joinWith "\n" (prompts.map serializePromptExample)
  let s3Location := "s3://" ++ config.trainingDataBucket ++ "/" ++ key
  (key, jsonlContent,
    ⟨prompts.length, s3Location, datasetVersion, completionTime, none⟩)

/-- Newline counting distributes over append. -/
theorem nlCount_append (a b : String) :
    nlCount (a ++ b) = nlCount a + nlCount b := by
  simp [nlCount, String.data_append]

/-- No escaped character produces a raw newline. -/
theorem nlCount_jsonEscapeChar (c : Char) : nlCount (jsonEscapeChar c) = 0 := by
  unfold jsonEscapeChar
  split_ifs with h1 h2 h3 h4 h5
  · decide
  · decide
  · decide
  · decide
  · decide
  · simp [nlCount, String.singleton, List.count_cons, h3]

/-- Escaped character lists contain no raw newline. -/
theorem nlCount_jsonEscapeList (cs : List Char) :
    nlCount (jsonEscapeList cs) = 0 := by
  induction cs with
  | nil => decide
  | cons c cs ih =>
    rw [jsonEscapeList, nlCount_append, nlCount_jsonEscapeChar, ih]

/-- JSON string literals contain no raw newline. -/
theorem nlCount_jsonStr (s : String) : nlCount (jsonStr s) = 0 := by
  unfold jsonStr
  rw [nlCount_append, nlCount_append, nlCount_jsonEscapeList]
  decide

/-- Joining newline-free pieces with a newline-free separator is
newline-free. -/
theorem nlCount_joinWith_zero (sep : String) (hsep : nlCount sep = 0) :
    ∀ l : List String, (∀ x ∈ l, nlCount x = 0) →
      nlCount (joinWith sep l) = 0
  | [], _ => by rw [joinWith]; decide
  | [x], h => by rw [joinWith]; exact h x (by simp)
  | x :: y :: rest, h => by
    rw [joinWith, nlCount_append, nlCount_append,
      nlCount_joinWith_zero sep hsep (y :: rest) (fun z hz =>
        h z (List.mem_cons_of_mem x hz)),
      h x (by simp), hsep]

/-- A serialized example is a single line. -/
theorem nlCount_serializePromptExample (p : PromptExample) :
    nlCount (serializePromptExample p) = 0 := by
  unfold serializePromptExample
  rw [nlCount_append, nlCount_append, nlCount_append, nlCount_append,
    nlCount_append, nlCount_append]
  rw [nlCount_jsonStr, nlCount_jsonStr]
  rw [nlCount_joinWith_zero "," (by decide) _ (fun x hx => ?_)]
  · decide
  · rcases List.mem_map.mp hx with ⟨kv, -, rfl⟩
    unfold serializeKV
    rw [nlCount_append, nlCount_append, nlCount_jsonStr, nlCount_jsonStr]
    decide

/-- Joining `n` single-line pieces with newlines yields `n - 1` newline
characters. -/
theorem nlCount_joinWith_newline :
    ∀ l : List String, (∀ x ∈ l, nlCount x = 0) → l ≠ [] →
      nlCount (joinWith "\n" l) = l.length - 1
  | [], _, hne => absurd rfl hne
  | [x], h, _ => by rw [joinWith]; simpa using h x (by simp)
  | x :: y :: rest, h, _ => by
    rw [joinWith, nlCount_append, nlCount_append,
      nlCount_joinWith_newline (y :: rest) (fun z hz =>
        h z (List.mem_cons_of_mem x hz)) (by simp),
      h x (by simp)]
    simp [nlCount]
    omega

/-! ## Claim C8 -/

/-- C8: for every non-empty example list the dataset writer serializes one
JSON object per example joined by newlines — the body's line count equals
the example count — stores it under the key
`datasets/<publicationId or "all">/<now>-<runId>/training-data.jsonl`, and
returns a descriptor whose example count equals the number of examples
written, whose version token is `<now>-<runId>`, and whose location is the
s3 URI of that key. -/
theorem c8_dataset_writer (now completionTime : Nat)
    (prompts : List PromptExample) (config : TrainingConfig)
    (hne : prompts ≠ []) :
    lineCount (saveTrainingDataset now completionTime prompts config).2.1 =
      prompts.length ∧
    (saveTrainingDataset now completionTime prompts
        config).2.2.promptCount = prompts.length ∧
    (saveTrainingDataset now completionTime prompts
        config).2.2.datasetVersion =
      toString now ++ "-" ++ config.trainingRunId ∧
    (saveTrainingDataset now completionTime prompts config).1 =
      "datasets/" ++ jsOrString config.publicationId "all" ++ "/" ++
        (toString now ++ "-" ++ config.trainingRunId) ++
        "/training-data.jsonl" ∧
    (saveTrainingDataset now completionTime prompts config).2.2.s3Location =
      "s3://" ++ config.trainingDataBucket ++ "/" ++
        (saveTrainingDataset now completionTime prompts config).1 := by
  refine ⟨?_, rfl, rfl, rfl, rfl⟩
  show lineCount (joinWith "\n" (prompts.map serializePromptExample)) =
    prompts.length
  unfold lineCount
  rw [nlCount_joinWith_newline (prompts.map serializePromptExample)
    (fun x hx => ?_) (by simpa using hne)]
  · rcases prompts with _ | ⟨p, ps⟩
    · exact absurd rfl hne
    · simp
  · rcases List.mem_map.mp hx with ⟨p, -, rfl⟩
    exact nlCount_serializePromptExample p

/-- A concrete configuration for the C8 witness. -/
def c8Config : TrainingConfig :=
  ⟨30, none, "run-123", 100, "bucket", "default", "articles", "primary",
   "s3://bucket/athena-results/"⟩

/-- Witness for C8: one example written at submission time 1000 yields a
one-line body and the expected key, version, and location. -/
theorem c8_dataset_writer_witness :
    ([⟨"p", "c", []⟩] : List PromptExample) ≠ [] ∧
    lineCount (saveTrainingDataset 1000 2000 [⟨"p", "c", []⟩]
      c8Config).2.1 = 1 ∧
    (saveTrainingDataset 1000 2000 [⟨"p", "c", []⟩]
      c8Config).2.2.datasetVersion = "1000-run-123" :=
  ⟨by decide,
   (c8_dataset_writer 1000 2000 [⟨"p", "c", []⟩] c8Config (by decide)).1,
   ((c8_dataset_writer 1000 2000 [⟨"p", "c", []⟩] c8Config
     (by decide)).2.2.1).trans (by decide)⟩

/-! ## Training job submitter (src/app/src/bedrock-service.ts,
`BedrockService.createModelCustomizationJob`, lines 27-66) -/

/-- The submitted job name, `training-${config.trainingRunId}-${stage}`
(bedrock-service.ts line 40). -/
def jobNameFor (trainingRunId stage : String) : String :=
  "training-" ++ trainingRunId ++ "-" ++ stage

/-- The submitted custom model name,
`custom-model-${config.publicationId || "all"}-${stage}-${Date.now()}`
(bedrock-service.ts lines 41-43). -/
def customModelNameFor (publicationId : Option String) (stage : String)
    (now : Nat) : String :=
  "custom-model-" ++ jsOrString publicationId "all" ++ "-" ++ stage ++
    "-" ++ toString now

/-- One training-job submission: the run id and publication filter from the
config, the `STAGE` environment variable, and the `Date.now()` reading at
submission. -/
structure SubmissionContext where
  trainingRunId : String
  publicationId : Option String
  stage : String
  now : Nat
deriving Repr, DecidableEq

/-- The job name submitted for this submission. -/
def submittedJobName (s : SubmissionContext) : String :=
  jobNameFor s.trainingRunId s.stage

/-- The custom model name submitted for this submission. -/
def submittedModelName (s : SubmissionContext) : String :=
  customModelNameFor s.publicationId s.stage s.now

/-! Injectivity of the decimal rendering of `Date.now()` readings, needed
for the uniqueness of the timestamp-suffixed model name. -/

/-- Decimal digit list of a natural number, most significant digit first. -/
def natDigits (n : Nat) : List Char :=
  if h : n < 10 then [Nat.digitChar n]
  else natDigits (n / 10) ++ [Nat.digitChar (n % 10)]
termination_by n
decreasing_by exact Nat.div_lt_self (by omega) (by omega)

/-- Unfolding of `natDigits` for one-digit numbers. -/
theorem natDigits_lt (n : Nat) (h : n < 10) :
    natDigits n = [Nat.digitChar n] := by
  rw [natDigits, dif_pos h]

/-- Unfolding of `natDigits` for multi-digit numbers. -/
theorem natDigits_ge (n : Nat) (h : ¬n < 10) :
    natDigits n = natDigits (n / 10) ++ [Nat.digitChar (n % 10)] := by
  rw [natDigits, dif_neg h]

/-- `Nat.toDigitsCore` with enough fuel computes `natDigits`. -/
theorem toDigitsCore_eq_natDigits :
    ∀ (fuel n : Nat) (ds : List Char), n < fuel →
      Nat.toDigitsCore 10 fuel n ds = natDigits n ++ ds := by
  intro fuel
  induction fuel with
  | zero => intro n ds h; omega
  | succ fuel ih =>
    intro n ds h
    simp only [Nat.toDigitsCore]
    by_cases h0 : n / 10 = 0
    · rw [if_pos h0, natDigits_lt n (by omega), Nat.mod_eq_of_lt (by omega)]
      rfl
    · rw [if_neg h0, ih (n / 10) _ (by omega), natDigits_ge n (by omega)]
      simp

/-- A digit list is never empty. -/
theorem natDigits_ne_nil (n : Nat) : natDigits n ≠ [] := by
  by_cases h : n < 10
  · rw [natDigits_lt n h]; simp
  · rw [natDigits_ge n h]; simp

/-- `Nat.digitChar` tells decimal digits apart. -/
theorem digitChar_inj : ∀ a < 10, ∀ b < 10,
    Nat.digitChar a = Nat.digitChar b → a = b := by decide

/-- The decimal digit list determines the number. -/
theorem natDigits_inj (a b : Nat) (h : natDigits a = natDigits b) :
    a = b := by
  have H : ∀ (n a b : Nat), a ≤ n → natDigits a = natDigits b → a = b := by
    intro n
    induction n with
    | zero =>
      intro a b ha h
      have ha0 : a = 0 := Nat.le_zero.mp ha
      subst ha0
      rw [natDigits_lt 0 (by omega)] at h
      by_cases hb : b < 10
      · rw [natDigits_lt b hb] at h
        simp only [List.cons.injEq, and_true] at h
        exact digitChar_inj 0 (by omega) b hb h
      · exfalso
        rw [natDigits_ge b hb] at h
        have hlen := congrArg List.length h
        simp at hlen
        exact absurd hlen (natDigits_ne_nil (b / 10))
    | succ n ih =>
      intro a b ha h
      by_cases haa : a < 10 <;> by_cases hbb : b < 10
      · rw [natDigits_lt a haa, natDigits_lt b hbb] at h
        simp only [List.cons.injEq, and_true] at h
        exact digitChar_inj a haa b hbb h
      · exfalso
        rw [natDigits_lt a haa, natDigits_ge b hbb] at h
        have hlen := congrArg List.length h
        simp at hlen
        exact absurd hlen (natDigits_ne_nil (b / 10))
      · exfalso
        rw [natDigits_ge a haa, natDigits_lt b hbb] at h
        have hlen := congrArg List.length h
        simp at hlen
        exact absurd hlen (natDigits_ne_nil (a / 10))
      · rw [natDigits_ge a haa, natDigits_ge b hbb] at h
        have hsplit := List.append_inj' h (by simp)
        have h1 : a / 10 = b / 10 := by
          have hle : a / 10 ≤ n := by
            have := Nat.div_lt_self (show 0 < a by omega)
              (show 1 < 10 by omega)
            omega
          exact ih (a / 10) (b / 10) hle hsplit.1
        have h2 : a % 10 = b % 10 := by
          have hx := hsplit.2
          simp only [List.cons.injEq, and_true] at hx
          exact digitChar_inj (a % 10) (by omega) (b % 10) (by omega) hx
        omega
  exact H a a b le_rfl h

/-- The decimal rendering of a natural number is injective. -/
theorem natToString_inj (a b : Nat) (h : toString a = toString b) :
    a = b := by
  have hrepr : Nat.repr a = Nat.repr b := h
  unfold Nat.repr at hrepr
  have hdata := congrArg String.data hrepr
  simp only [List.asString] at hdata
  unfold Nat.toDigits at hdata
  rw [toDigitsCore_eq_natDigits (a + 1) a [] (by omega),
    toDigitsCore_eq_natDigits (b + 1) b [] (by omega)] at hdata
  simp only [List.append_nil] at hdata
  exact natDigits_inj a b hdata

/-! ## Claim C9 -/

/-- C9 counterexample: two distinct submissions in two distinct runs (run
ids `run-a` and `run-b`, same stage) that happen to read the same
`Date.now()` millisecond receive the **same** custom model name — the
model name does not involve the run id; and two distinct submissions of the
same run at different times receive the **same** job name — the job name
does not involve the submission time.  Both parts refute the claim that
every pair of distinct submissions gets unique names each derived from run
id, stage, and submission time. -/
theorem c9_counterexample_name_collisions :
    (⟨"run-a", none, "dev", 1000⟩ : SubmissionContext) ≠
      ⟨"run-b", none, "dev", 1000⟩ ∧
    submittedModelName ⟨"run-a", none, "dev", 1000⟩ =
      submittedModelName ⟨"run-b", none, "dev", 1000⟩ ∧
    (⟨"run-a", none, "dev", 1000⟩ : SubmissionContext) ≠
      ⟨"run-a", none, "dev", 2000⟩ ∧
    submittedJobName ⟨"run-a", none, "dev", 1000⟩ =
      submittedJobName ⟨"run-a", none, "dev", 2000⟩ := by
  exact ⟨by decide, rfl, by decide, rfl⟩

/-- C9 amended: for submissions in the same stage, the job name
`training-<runId>-<stage>` is unique whenever the run ids differ, and the
custom model name `custom-model-<publicationId|"all">-<stage>-<now>` is
unique, for equal publication filters, whenever the `Date.now()` readings
differ. -/
theorem c9_amended_name_uniqueness (s1 s2 : SubmissionContext)
    (hstage : s1.stage = s2.stage) :
    (s1.trainingRunId ≠ s2.trainingRunId →
      submittedJobName s1 ≠ submittedJobName s2) ∧
    (s1.publicationId = s2.publicationId → s1.now ≠ s2.now →
      submittedModelName s1 ≠ submittedModelName s2) := by
  constructor
  · intro hrun heq
    apply hrun
    unfold submittedJobName jobNameFor at heq
    rw [hstage] at heq
    have hd := congrArg String.data heq
    simp only [String.data_append, List.append_assoc] at hd
    exact String.ext
      (List.append_cancel_right (List.append_cancel_left hd))
  · intro hpub hnow heq
    apply hnow
    unfold submittedModelName customModelNameFor at heq
    rw [hstage, hpub] at heq
    have hd := congrArg String.data heq
    simp only [String.data_append, List.append_assoc] at hd
    have h1 := List.append_cancel_left hd
    have h2 := List.append_cancel_left h1
    have h3 := List.append_cancel_left h2
    have h4 := List.append_cancel_left h3
    have h5 := List.append_cancel_left h4
    exact natToString_inj s1.now s2.now (String.ext h5)

/-- Witness for the amended C9: two concrete same-stage submissions with
distinct run ids and distinct timestamps receive distinct job names and
distinct model names. -/
theorem c9_amended_name_uniqueness_witness :
    submittedJobName ⟨"run-a", none, "dev", 1000⟩ ≠
      submittedJobName ⟨"run-b", none, "dev", 2000⟩ ∧
    submittedModelName ⟨"run-a", none, "dev", 1000⟩ ≠
      submittedModelName ⟨"run-b", none, "dev", 2000⟩ :=
  ⟨(c9_amended_name_uniqueness ⟨"run-a", none, "dev", 1000⟩
      ⟨"run-b", none, "dev", 2000⟩ rfl).1 (by decide),
   (c9_amended_name_uniqueness ⟨"run-a", none, "dev", 1000⟩
      ⟨"run-b", none, "dev", 2000⟩ rfl).2 rfl (by decide)⟩
